import Mathlib

/-!
Verification of the tyro DICOM discovery/parsing pipeline.

The Go sources are embedded shallowly:
* `isValidDICOM` (src/discoverer.go 38-66 and src/operations/discoverer.go 44-72)
  is a pure function on an abstract file reachable from a path;
* the worker / drain loops are folds over the sequence of items observed on the
  channels;
* the goroutine close-order discipline is modelled by a scheduler that
  interleaves per-goroutine event lists;
* the consumer-bridge races are modelled by explicit atomic actions interleaved
  by a schedule.

Definitions come first, then the theorems about them.
-/

set_option maxRecDepth 4000

namespace Tyro

/-- Go `error` values that occur in the pipeline.  `eof` is `io.EOF`,
`fileTooSmall` is `ErrorFileTooSmallToBeDICOM`, `invalidMagic` is
`ErrorInvalidMagicNumber`; `ioError` covers any other open/read error and
`decodeError` any error returned by the dicom library; `panicMsg s` is the
error built by `fmt.Errorf("panic during DICOM parsing: %v", r)`. -/
inductive GoError where
  | eof
  | fileTooSmall
  | invalidMagic
  | ioError (msg : String)
  | decodeError (msg : String)
  | panicMsg (msg : String)
  deriving DecidableEq, Repr

/-- The message of a Go error (`err.Error()`). -/
def GoError.message : GoError → String
  | .eof => "EOF"
  | .fileTooSmall => "file too small to be a valid DICOM"
  | .invalidMagic => "invalid magic number"
  | .ioError s => s
  | .decodeError s => s
  | .panicMsg s => "panic during DICOM parsing: " ++ s

/-- What `os.Open` finds at a candidate path: either a regular file with the
given byte content, or an open failure. -/
inductive PathFile where
  | openable (content : List Nat)
  | openFails (e : GoError)
  deriving DecidableEq, Repr

/-- An open `*os.File`: its content, its current read offset, and whether it is
still open (`Close` has not been called on it). -/
structure FileHandle where
  content : List Nat
  pos : Nat
  isOpen : Bool
  deriving DecidableEq, Repr

/-- The call `file.Read(header)` with a 132-byte buffer on a just-opened file:
an empty file yields `(0, io.EOF)`; otherwise up to 132 bytes are read with no
error.  Returns (bytes read into the buffer, n, error). -/
def readHeader (content : List Nat) : List Nat × Nat × Option GoError :=
  if content.isEmpty then ([], 0, some GoError.eof)
  else (content.take 132, min content.length 132, none)

/-- The 4-byte DICOM magic `"DICM"`. -/
def dicmMagic : List Nat := [68, 73, 67, 77]

/-- Bytes `header[128:132]` of the read buffer. -/
def magicSlice (content : List Nat) : List Nat :=
  (content.take 132).drop 128

/-- The function `isValidDICOM` (src/discoverer.go 38-66, identical in
src/operations/discoverer.go 44-72).  Mirrors the Go control flow: open, read
132 bytes, reject on read error, reject if fewer than 132 bytes were read,
reject if bytes [128,132) are not `"DICM"`, otherwise seek back to offset 0 and
return the open handle.  Result is `(isValid, handle, err)` as in Go. -/
def isValidDICOM (f : PathFile) : Bool × Option FileHandle × Option GoError :=
  match f with
  | .openFails e => (false, none, some e)
  | .openable content =>
    let r := readHeader content
    match r.2.2 with
    | some e => (false, none, some e)
    | none =>
      if r.2.1 < 132 then (false, none, some GoError.fileTooSmall)
      else if magicSlice content ≠ dicmMagic then (false, none, some GoError.invalidMagic)
      else (true, some { content := content, pos := 0, isOpen := true }, none)

/-- A byte content carrying the DICOM signature: 128-byte preamble then "DICM". -/
def validContent : List Nat := List.replicate 128 0 ++ dicmMagic

/-- A discovered DICOM file (`DicomFile`): its path and its open handle. -/
structure DicomFile where
  path : String
  handle : FileHandle
  deriving DecidableEq, Repr

/-- What `dicomCheckerWorker` does with one path (src/discoverer.go 147-158,
src/operations/discoverer.go 138-149): if `isValidDICOM` returned an error,
the error is sent on the error channel; otherwise, if the file is valid, the
`DicomFile` is sent on the result channel; otherwise nothing is sent. -/
def checkFile (p : String × PathFile) : Option (DicomFile ⊕ GoError) :=
  match isValidDICOM p.2 with
  | (_, _, some e) => some (.inr e)
  | (true, some h, none) => some (.inl ⟨p.1, h⟩)
  | _ => none

/-- Streaming discovery (`operations.DiscoverDICOMFiles`): the full contents
of the `Files` and `Errors` channels for a directory listing, with the worker
pool serialized in walk order.  No error is filtered: every error returned by
`isValidDICOM`, ignorable or not, is sent to the caller's error channel. -/
def discoverStream (dir : List (String × PathFile)) : List DicomFile × List GoError :=
  dir.foldl
    (fun acc p =>
      match checkFile p with
      | some (.inl f) => (acc.1 ++ [f], acc.2)
      | some (.inr e) => (acc.1, acc.2 ++ [e])
      | none => acc)
    ([], [])

/-- The type `MultiError` (src/errors/multierror.go). -/
structure MultiError where
  errs : List GoError
  deriving DecidableEq, Repr

/-- The constructor `errors.New()`. -/
def MultiError.new : MultiError := ⟨[]⟩

/-- The method `MultiError.Add` on a non-nil error. -/
def MultiError.add (m : MultiError) (e : GoError) : MultiError := ⟨m.errs ++ [e]⟩

/-- The method `MultiError.HasErrors`. -/
def MultiError.hasErrors (m : MultiError) : Bool := !m.errs.isEmpty

/-- The method `MultiError.Error` (src/errors/multierror.go 25-36): empty
string when no errors, otherwise a header line followed by one `"\n- "` bullet
per error in insertion order. -/
def MultiError.error (m : MultiError) : String :=
  if m.errs.isEmpty then ""
  else "Multiple errors occurred:" ++ String.join (m.errs.map (fun e => "\n- " ++ e.message))

/-- Whether an error is one of the two ignorable validation errors. -/
def isIgnorable (e : GoError) : Bool :=
  e == GoError.fileTooSmall || e == GoError.invalidMagic

/-- The aggregate drain loop of `DiscoverDICOMFiles` (src/discoverer.go
105-123), folded over the sequence of channel items it observes (files from
`resultCh`, errors from `errCh`, in completion order): files are collected in
order; an error is added to the `MultiError` unless it is
`ErrorFileTooSmallToBeDICOM` or `ErrorInvalidMagicNumber`. -/
def aggregateCollect (events : List (DicomFile ⊕ GoError)) : List DicomFile × MultiError :=
  events.foldl
    (fun acc ev =>
      match ev with
      | .inl f => (acc.1 ++ [f], acc.2)
      | .inr e => if isIgnorable e then acc else (acc.1, acc.2.add e))
    ([], MultiError.new)

/-- Aggregate discovery result (src/discoverer.go 114-120): the collected list
plus the `MultiError` when it has errors, or `none` (Go `nil`) otherwise. -/
def DiscoverDICOMFilesAgg (events : List (DicomFile ⊕ GoError)) :
    List DicomFile × Option MultiError :=
  let r := aggregateCollect events
  if r.2.hasErrors then (r.1, some r.2) else (r.1, none)

/-- The real (non-ignorable) errors among a sequence of channel items, in
observation order. -/
def realErrorsOf (events : List (DicomFile ⊕ GoError)) : List GoError :=
  events.filterMap (fun ev =>
    match ev with
    | .inl _ => none
    | .inr e => if isIgnorable e then none else some e)

/-- The files among a sequence of channel items, in observation order. -/
def filesOf (events : List (DicomFile ⊕ GoError)) : List DicomFile :=
  events.filterMap (fun ev =>
    match ev with
    | .inl f => some f
    | .inr _ => none)

/-- All errors among a sequence of channel items, ignorable or not, in order. -/
def allErrorsOf (events : List (DicomFile ⊕ GoError)) : List GoError :=
  events.filterMap (fun ev =>
    match ev with
    | .inl _ => none
    | .inr e => some e)

/-- A parsed `dicom.Dataset`, abstracted to its element list. -/
structure Dataset where
  elements : List Nat
  deriving DecidableEq, Repr

/-- The recovered panic value `r`: either an error value (so the type
assertion `r.(error)` succeeds) or any other value, remembered by its
formatted text. -/
inductive PanicValue where
  | errVal (e : GoError)
  | otherVal (s : String)
  deriving DecidableEq, Repr

/-- Behaviour of the opaque `dicom.ParseUntilEOF` call on one input: return a
dataset, return an error, or panic with some value. -/
inductive RawParse where
  | ok (d : Dataset)
  | fails (e : GoError)
  | panics (v : PanicValue)
  deriving DecidableEq, Repr

/-- The error a recovered panic is converted into (src/parser.go 155-163):
the panic value itself when it is an error, otherwise
`fmt.Errorf("panic during DICOM parsing: %v", r)`. -/
def panicToError : PanicValue → GoError
  | .errVal e => e
  | .otherVal s => GoError.panicMsg s

/-- The wrapper `saveParseUntilEOF` (src/parser.go 153-170): runs the decoder
under a deferred `recover`; a success or an error return passes through, and a
panic is converted into an ordinary error.  The result type has no panic
constructor: no abnormal termination escapes the wrapper. -/
def saveParseUntilEOF (raw : RawParse) : Dataset ⊕ GoError :=
  match raw with
  | .ok d => .inl d
  | .fails e => .inr e
  | .panics v => .inr (panicToError v)

/-- The record type `ParsedDicomFile` (src/parser.go 22-33).  Handles are
identified by a numeric id. -/
structure ParsedDicomFile where
  path : String
  dataset : Dataset
  handle : Nat
  isOpen : Bool
  deriving DecidableEq, Repr

/-- One item received by a decode worker: the discovered file (path and open
handle) together with the decoder's behaviour on it. -/
structure ParseInput where
  path : String
  handle : Nat
  raw : RawParse
  deriving DecidableEq, Repr

/-- Output of a decode worker run: emitted records and errors in completion
order, and the handles it closed. -/
structure WorkerOut where
  records : List ParsedDicomFile
  errors : List GoError
  closedHandles : List Nat
  deriving DecidableEq, Repr

/-- The worker `dicomParserWorker` (src/parser.go 124-141): for each received
file, call the decoder through `saveParseUntilEOF`; on error, send the error
and close the file's handle, then continue with the next file; on success,
emit the `ParsedDicomFile` with `isOpen := true` and leave its handle open. -/
def dicomParserWorker (files : List ParseInput) : WorkerOut :=
  files.foldl
    (fun acc f =>
      match saveParseUntilEOF f.raw with
      | .inr e =>
        { acc with
          errors := acc.errors ++ [e],
          closedHandles := acc.closedHandles ++ [f.handle] }
      | .inl d =>
        { acc with
          records := acc.records ++
            [{ path := f.path, dataset := d, handle := f.handle, isOpen := true }] })
    ⟨[], [], []⟩

/-- The record an input yields when its decode succeeds. -/
def recordOf (f : ParseInput) : Option ParsedDicomFile :=
  match saveParseUntilEOF f.raw with
  | .inl d => some { path := f.path, dataset := d, handle := f.handle, isOpen := true }
  | .inr _ => none

/-- The error an input yields when its decode fails (panics included). -/
def errorOf (f : ParseInput) : Option GoError :=
  match saveParseUntilEOF f.raw with
  | .inl _ => none
  | .inr e => some e

/-- The handle an input gets closed when its decode fails. -/
def closedOf (f : ParseInput) : Option Nat :=
  match saveParseUntilEOF f.raw with
  | .inl _ => none
  | .inr _ => some f.handle

/-- The method `ParsedDicomFile.GetHandle` (src/parser.go 39-50), with the
filesystem modelled by `fs` (what `os.Open` returns for a path).  Result: the
updated record, the returned `(handle, err)`, and the list of paths actually
opened. -/
def GetHandle (fs : String → Except GoError Nat) (p : ParsedDicomFile) :
    ParsedDicomFile × Except GoError Nat × List String :=
  if p.isOpen then (p, .ok p.handle, [])
  else
    match fs p.path with
    | .error e => (p, .error e, [p.path])
    | .ok h => ({ p with handle := h, isOpen := true }, .ok h, [p.path])

/-- The method `ParsedDicomFile.Close` (src/parser.go 52-58), with the
underlying `(*os.File).Close` result modelled by `closeErr`.  Result: the
updated record, the returned error (`none` = Go `nil`), and the handles
actually closed. -/
def recordClose (closeErr : Nat → Option GoError) (p : ParsedDicomFile) :
    ParsedDicomFile × Option GoError × List Nat :=
  if p.isOpen then ({ p with isOpen := false }, closeErr p.handle, [p.handle])
  else (p, none, [])

/-- Channel-level events of one stage run. -/
inductive Event where
  | sendPath
  | sendFile
  | sendErr
  | closeFileCh
  | waitBarrier
  | closeErrCh
  | closeResultCh
  deriving DecidableEq, Repr

/-- One scheduler step: goroutine `i` emits its next event (no event if `i`
is out of range or that goroutine has finished). -/
def stepThreads (threads : List (List Event)) (i : Nat) :
    Option Event × List (List Event) :=
  match threads.get? i with
  | some (e :: rest) => (some e, threads.set i rest)
  | _ => (none, threads)

/-- The trace emitted when the goroutines run under a schedule. -/
def runThreads : List Nat → List (List Event) → List Event
  | [], _ => []
  | i :: sched, threads =>
    match stepThreads threads i with
    | (some e, rest) => e :: runThreads sched rest
    | (none, rest) => runThreads sched rest

/-- Holds (= `true`) iff no `closeResultCh` occurs in the list before the
first `closeErrCh`. -/
def errChClosesFirst : List Event → Bool
  | [] => true
  | .closeResultCh :: _ => false
  | .closeErrCh :: _ => true
  | _ :: t => errChClosesFirst t

/-- The walker goroutine's events (src/discoverer.go 129-143 and
src/operations/discoverer.go 120-134): per visited entry `(hasErr, isFile)` a
traversal-error send when present and a path send for regular files; after the
walk, the close of the path channel. -/
def walkerThread (entries : List (Bool × Bool)) : List Event :=
  (entries.flatMap (fun en =>
    (if en.1 then [Event.sendErr] else []) ++
    (if en.2 then [Event.sendPath] else []))) ++ [Event.closeFileCh]

/-- A validator or decode worker's events (src/discoverer.go 147-158,
src/parser.go 124-141): per received item a result send on success or an error
send on failure. -/
def workerThread (outcomes : List Bool) : List Event :=
  outcomes.map (fun ok => if ok then Event.sendFile else Event.sendErr)

/-- The shutdown barrier goroutine of both stages (src/discoverer.go 99-103,
src/parser.go 104-108): wait for all workers, close the error channel first —
"we need to close this first in order to not loose a possible last error" —
then close the result channel. -/
def barrierThread : List Event := [.waitBarrier, .closeErrCh, .closeResultCh]

/-- The goroutines of one `DiscoverDICOMFiles` run: the walker, the validator
workers, the barrier. -/
def discoveryThreads (entries : List (Bool × Bool))
    (workers : List (List Bool)) : List (List Event) :=
  walkerThread entries :: (workers.map workerThread ++ [barrierThread])

/-- The goroutines of one `ParseDICOMFiles` run: the decode workers and the
barrier. -/
def parsingThreads (workers : List (List Bool)) : List (List Event) :=
  workers.map workerThread ++ [barrierThread]

/-- An item the error collector of `discoveryModel.discoverFiles` can observe
on its two input channels: an error received from the discovery stage's error
channel or from the parsing stage's error channel, or the closing of either. -/
inductive ChanObs where
  | discErr (e : GoError)
  | discClosed
  | parseErr (e : GoError)
  | parseClosed
  deriving DecidableEq, Repr

/-- State of the error-collector goroutine: the two finished flags and the
errors accumulated so far. -/
structure CollectorState where
  discoveryFinished : Bool
  parseFinished : Bool
  collected : List GoError
  deriving DecidableEq, Repr

/-- The error-collector goroutine of `discoveryModel.discoverFiles`
(src/unnamed/part_002 lines 109-131), run over the sequence of channel
observations the select would deliver: the loop header is
`for !discoveryFinished && !parseFinished`; inside, a closed channel sets its
finished flag and an error is appended.  Observations left when the loop
condition fails are never received. -/
def errorCollectorLoop : List ChanObs → CollectorState → CollectorState
  | [], s => s
  | o :: rest, s =>
    if !s.discoveryFinished && !s.parseFinished then
      match o with
      | .discErr e => errorCollectorLoop rest { s with collected := s.collected ++ [e] }
      | .discClosed => errorCollectorLoop rest { s with discoveryFinished := true }
      | .parseErr e => errorCollectorLoop rest { s with collected := s.collected ++ [e] }
      | .parseClosed => errorCollectorLoop rest { s with parseFinished := true }
    else s

/-- The collector's starting state. -/
def initialCollector : CollectorState := ⟨false, false, []⟩

/-- The accumulator's shared state plus the consumer's local view: the shared
`collectedDiscoveryFiles` list (records as ids), the consumer's local
`collectedFiles` variable, and the batches delivered so far. -/
structure AccumState where
  buffer : List Nat
  snapshot : List Nat
  batches : List (List Nat)
  deriving DecidableEq, Repr

/-- Atomic actions on the accumulator.  `appendFile` is
`addFileToCollection` (append under the mutex, src/unnamed/part_002 143-147).
`collectFiles` (src/unnamed/part_002 155-167) consists of two separate atomic
actions, because the snapshot read `collectedFiles := s.collectedDiscoveryFiles`
happens before the mutex is taken: `readSnapshot` (the unlocked read) and
`clearAndEmit` (replace the list by an empty one under the mutex, then deliver
the snapshot as the batch message). -/
inductive BridgeAction where
  | appendFile (x : Nat)
  | readSnapshot
  | clearAndEmit
  deriving DecidableEq, Repr

/-- Effect of one atomic action. -/
def bridgeStep (s : AccumState) : BridgeAction → AccumState
  | .appendFile x => { s with buffer := s.buffer ++ [x] }
  | .readSnapshot => { s with snapshot := s.buffer }
  | .clearAndEmit => { s with buffer := [], batches := s.batches ++ [s.snapshot] }

/-- A run of the bridge under one interleaving of collector and consumer. -/
def bridgeRun (acts : List BridgeAction) (s : AccumState) : AccumState :=
  acts.foldl bridgeStep s

/-- The empty accumulator. -/
def initialAccum : AccumState := ⟨[], [], []⟩

/-- One callback invocation made by `filepath.WalkDir`: the visited path, the
directory entry (`none` when WalkDir passes a nil `DirEntry`, as it does when
stat of the root itself fails; otherwise whether the entry is a directory),
and the error argument. -/
structure WalkEntry where
  path : String
  dirent : Option Bool
  err : Option GoError
  deriving DecidableEq, Repr

/-- What a `fileWalker` run produced: paths sent on the path channel, errors
sent on the error channel, and whether the path channel was closed. -/
structure WalkerOut where
  sentPaths : List String
  sentErrs : List GoError
  fileChClosed : Bool
  deriving DecidableEq, Repr

/-- The callback loop of `fileWalker` (src/discoverer.go 129-143,
src/operations/discoverer.go 120-134): each invocation sends the error
argument when non-nil and then unconditionally evaluates `d.IsDir()` — a nil
pointer dereference when the `DirEntry` is nil.  `Except.error` is that
runtime panic: the goroutine dies there. -/
def fileWalkerGo : List WalkEntry → List String → List GoError →
    Except String WalkerOut
  | [], paths, errs => .ok ⟨paths, errs, true⟩
  | en :: rest, paths, errs =>
    let errs' := errs ++ en.err.toList
    match en.dirent with
    | none => .error "runtime error: invalid memory address or nil pointer dereference"
    | some isDir =>
      if isDir then fileWalkerGo rest paths errs'
      else fileWalkerGo rest (paths ++ [en.path]) errs'

/-- A `fileWalker` run over the callback invocations `WalkDir` makes: on
normal completion the path channel is closed (src/discoverer.go 142). -/
def fileWalkerRun (entries : List WalkEntry) : Except String WalkerOut :=
  fileWalkerGo entries [] []

/-! ## Theorems -/

/-- C1, counterexample: at an empty file the read returns 0 bytes (fewer than
132) together with `io.EOF`, and the validator reports that EOF as the error —
not `ErrorFileTooSmallToBeDICOM`.  So "ignorable-too-small whenever fewer than
132 bytes were read" fails at the empty file. -/
theorem isValidDICOM_empty_file_not_tooSmall :
    (readHeader []).2.1 < 132 ∧
    (isValidDICOM (.openable [])).2.2 = some GoError.eof ∧
    (isValidDICOM (.openable [])).2.2 ≠ some GoError.fileTooSmall := by
  decide

/-- C1 (amended): for every candidate path, a failed open is reported as that
open error; on a successful open, an empty file yields a real `io.EOF` error;
a non-empty file whose read returns fewer than 132 bytes is classified
ignorable-too-small; a file of at least 132 bytes whose bytes [128,132) are not
`"DICM"` is classified ignorable-bad-signature; otherwise a validated file is
emitted whose handle is open with read position exactly 0. -/
theorem isValidDICOM_classification (content : List Nat) (e : GoError) :
    (isValidDICOM (.openFails e) = (false, none, some e)) ∧
    (isValidDICOM (.openable []) = (false, none, some GoError.eof)) ∧
    (content ≠ [] → content.length < 132 →
      isValidDICOM (.openable content) = (false, none, some GoError.fileTooSmall)) ∧
    (132 ≤ content.length → magicSlice content ≠ dicmMagic →
      isValidDICOM (.openable content) = (false, none, some GoError.invalidMagic)) ∧
    (132 ≤ content.length → magicSlice content = dicmMagic →
      isValidDICOM (.openable content) =
        (true, some { content := content, pos := 0, isOpen := true }, none)) := by
  refine ⟨rfl, rfl, ?_, ?_, ?_⟩
  · intro hne hlt
    have hempty : content.isEmpty = false := by
      cases content with
      | nil => exact absurd rfl hne
      | cons a l => rfl
    simp [isValidDICOM, readHeader, hempty]
    omega
  · intro hge hmagic
    have hempty : content.isEmpty = false := by
      cases content with
      | nil => simp at hge
      | cons a l => rfl
    simp [isValidDICOM, readHeader, hempty, hmagic]
    omega
  · intro hge hmagic
    have hempty : content.isEmpty = false := by
      cases content with
      | nil => simp at hge
      | cons a l => rfl
    have hnlt : ¬ min content.length 132 < 132 := by omega
    simp [isValidDICOM, readHeader, hempty, hnlt, hmagic]

/-- C1 witness: the classification theorem applied to a concrete valid file. -/
theorem isValidDICOM_classification_witness :
    isValidDICOM (.openable validContent) =
      (true, some { content := validContent, pos := 0, isOpen := true }, none) :=
  (isValidDICOM_classification validContent GoError.eof).2.2.2.2
    (by decide) (by decide)

theorem aggregateCollect_go (events : List (DicomFile ⊕ GoError))
    (files : List DicomFile) (m : MultiError) :
    events.foldl
      (fun acc ev =>
        match ev with
        | .inl f => (acc.1 ++ [f], acc.2)
        | .inr e => if isIgnorable e then acc else (acc.1, acc.2.add e))
      (files, m) = (files ++ filesOf events, ⟨m.errs ++ realErrorsOf events⟩) := by
  induction events generalizing files m with
  | nil => simp [filesOf, realErrorsOf]
  | cons ev es ih =>
    cases ev with
    | inl f =>
      rw [List.foldl_cons]
      show List.foldl _ (files ++ [f], m) es = _
      rw [ih]
      simp [filesOf, realErrorsOf]
    | inr e =>
      rw [List.foldl_cons]
      show List.foldl _ (if isIgnorable e then (files, m) else (files, m.add e)) es = _
      by_cases hig : isIgnorable e = true
      · rw [if_pos hig, ih]
        simp [filesOf, realErrorsOf, hig]
      · rw [if_neg hig, ih]
        simp [filesOf, realErrorsOf, hig, MultiError.add]

theorem aggregateCollect_spec (events : List (DicomFile ⊕ GoError)) :
    aggregateCollect events = (filesOf events, ⟨realErrorsOf events⟩) := by
  have h := aggregateCollect_go events [] MultiError.new
  simpa [aggregateCollect, MultiError.new] using h

theorem discoverStream_go (dir : List (String × PathFile))
    (fs : List DicomFile) (es : List GoError) :
    dir.foldl
      (fun acc p =>
        match checkFile p with
        | some (.inl f) => (acc.1 ++ [f], acc.2)
        | some (.inr e) => (acc.1, acc.2 ++ [e])
        | none => acc)
      (fs, es) =
    (fs ++ filesOf (dir.filterMap checkFile), es ++ allErrorsOf (dir.filterMap checkFile)) := by
  induction dir generalizing fs es with
  | nil => simp [filesOf, allErrorsOf]
  | cons p ps ih =>
    rw [List.foldl_cons]
    cases hcf : checkFile p with
    | none => simp [hcf, ih, filesOf, allErrorsOf]
    | some ev =>
      cases ev with
      | inl f => simp [hcf, ih, filesOf, allErrorsOf]
      | inr e => simp [hcf, ih, filesOf, allErrorsOf]

theorem discoverStream_spec (dir : List (String × PathFile)) :
    discoverStream dir =
      (filesOf (dir.filterMap checkFile), allErrorsOf (dir.filterMap checkFile)) := by
  have h := discoverStream_go dir [] []
  simpa [discoverStream] using h

/-- `isValidDICOM` returns either `(false, nil, err)` or `(true, handle, nil)`. -/
theorem isValidDICOM_cases (f : PathFile) :
    (∃ e, isValidDICOM f = (false, none, some e)) ∨
    (∃ h, isValidDICOM f = (true, some h, none)) := by
  cases f with
  | openFails e => exact .inl ⟨e, rfl⟩
  | openable content =>
    by_cases hemp : content.isEmpty = true
    · exact .inl ⟨GoError.eof, by simp [isValidDICOM, readHeader, hemp]⟩
    · by_cases hlt : min content.length 132 < 132
      · exact .inl ⟨GoError.fileTooSmall, by
          simp [isValidDICOM, readHeader, hemp, hlt]⟩
      · by_cases hm : magicSlice content = dicmMagic
        · exact .inr ⟨{ content := content, pos := 0, isOpen := true }, by
            simp [isValidDICOM, readHeader, hemp, hlt, hm]⟩
        · exact .inl ⟨GoError.invalidMagic, by
            simp [isValidDICOM, readHeader, hemp, hlt, hm]⟩

/-- A path is emitted on the files channel exactly when its validation
succeeded. -/
theorem filesOf_checkFile_length (dir : List (String × PathFile)) :
    (filesOf (dir.filterMap checkFile)).length =
      (dir.filter (fun p => (isValidDICOM p.2).1)).length := by
  induction dir with
  | nil => rfl
  | cons p ps ih =>
    rcases isValidDICOM_cases p.2 with ⟨e, he⟩ | ⟨h, hh⟩
    · have hcf : checkFile p = some (.inr e) := by simp [checkFile, he]
      have hv : (isValidDICOM p.2).1 = false := by simp [he]
      simp [hcf, hv, filesOf]
      simpa [filesOf] using ih
    · have hcf : checkFile p = some (.inl ⟨p.1, h⟩) := by simp [checkFile, hh]
      have hv : (isValidDICOM p.2).1 = true := by simp [hh]
      simp [hcf, hv, filesOf]
      simpa [filesOf] using ih

theorem realErrorsOf_not_ignorable (events : List (DicomFile ⊕ GoError))
    (e : GoError) (he : e ∈ realErrorsOf events) : isIgnorable e = false := by
  rw [realErrorsOf, List.mem_filterMap] at he
  obtain ⟨ev, _, hev⟩ := he
  cases ev with
  | inl f => simp at hev
  | inr e' =>
    by_cases hig : isIgnorable e' = true
    · simp [hig] at hev
    · simp only [hig] at hev
      simp at hev
      simp [← hev]
      simpa using hig

/-- C2, counterexample: a directory holding one 10-byte file (non-matching).
Streaming discovery delivers `ErrorFileTooSmallToBeDICOM` — an ignorable
error — on the caller's error channel, so the claim's "zero ignorable errors
surfaced to the caller in both consumption modes" fails in streaming mode. -/
theorem discoverStream_surfaces_ignorable :
    (discoverStream [("b.txt", .openable (List.replicate 10 0))]).2 =
      [GoError.fileTooSmall] ∧
    isIgnorable GoError.fileTooSmall = true := by
  decide

/-- C2 (amended): in aggregate mode, discovery surfaces exactly N validated
files (N = number of matching files) and zero ignorable errors: ignorable
errors are filtered before aggregation.  In streaming mode the files channel
also carries exactly N validated files, but the error channel delivers every
validation error unfiltered — ignorable errors included — leaving filtering to
the caller. -/
theorem discovery_modes_spec (dir : List (String × PathFile))
    (events : List (DicomFile ⊕ GoError))
    (hperm : events.Perm (dir.filterMap checkFile)) :
    (DiscoverDICOMFilesAgg events).1.length =
      (dir.filter (fun p => (isValidDICOM p.2).1)).length ∧
    (∀ m, (DiscoverDICOMFilesAgg events).2 = some m →
      ∀ e ∈ m.errs, isIgnorable e = false) ∧
    (discoverStream dir).1.length =
      (dir.filter (fun p => (isValidDICOM p.2).1)).length ∧
    (discoverStream dir).2 = allErrorsOf (dir.filterMap checkFile) := by
  have hfiles : (DiscoverDICOMFilesAgg events).1 = filesOf events := by
    rw [DiscoverDICOMFilesAgg, aggregateCollect_spec]
    by_cases h : (⟨realErrorsOf events⟩ : MultiError).hasErrors = true <;> simp [h]
  refine ⟨?_, ?_, ?_, ?_⟩
  · rw [hfiles, ← filesOf_checkFile_length dir, filesOf, filesOf]
    exact (hperm.filterMap _).length_eq
  · intro m hm e he
    have herrs : m.errs = realErrorsOf events := by
      rw [DiscoverDICOMFilesAgg, aggregateCollect_spec] at hm
      by_cases h : (⟨realErrorsOf events⟩ : MultiError).hasErrors = true
      · simp [h] at hm
        rw [← hm]
      · simp [h] at hm
    rw [herrs] at he
    exact realErrorsOf_not_ignorable events e he
  · rw [discoverStream_spec]
    exact filesOf_checkFile_length dir
  · rw [discoverStream_spec]

/-- C2 witness: a directory with one valid DICOM file and one 10-byte file,
events observed in walk order. -/
theorem discovery_modes_spec_witness :
    (DiscoverDICOMFilesAgg
        ([("a.dcm", .openable validContent),
          ("b.txt", .openable (List.replicate 10 0))].filterMap checkFile)).1.length =
      ([("a.dcm", PathFile.openable validContent),
        ("b.txt", PathFile.openable (List.replicate 10 0))].filter
          (fun p => (isValidDICOM p.2).1)).length ∧
    (∀ m, (DiscoverDICOMFilesAgg
        ([("a.dcm", .openable validContent),
          ("b.txt", .openable (List.replicate 10 0))].filterMap checkFile)).2 = some m →
      ∀ e ∈ m.errs, isIgnorable e = false) ∧
    (discoverStream [("a.dcm", .openable validContent),
        ("b.txt", .openable (List.replicate 10 0))]).1.length =
      ([("a.dcm", PathFile.openable validContent),
        ("b.txt", PathFile.openable (List.replicate 10 0))].filter
          (fun p => (isValidDICOM p.2).1)).length ∧
    (discoverStream [("a.dcm", .openable validContent),
        ("b.txt", .openable (List.replicate 10 0))]).2 =
      allErrorsOf ([("a.dcm", .openable validContent),
        ("b.txt", .openable (List.replicate 10 0))].filterMap checkFile) :=
  discovery_modes_spec _ _ (List.Perm.refl _)

/-- C4: aggregate discovery returns the collected files with a nil failure
when no real error was observed, and otherwise one composite failure holding
exactly the real errors in observation order, rendered as a header line
followed by one bullet per error in that order. -/
theorem aggregate_failure_spec (events : List (DicomFile ⊕ GoError)) :
    (realErrorsOf events = [] →
      DiscoverDICOMFilesAgg events = (filesOf events, none)) ∧
    (realErrorsOf events ≠ [] →
      DiscoverDICOMFilesAgg events = (filesOf events, some ⟨realErrorsOf events⟩) ∧
      (⟨realErrorsOf events⟩ : MultiError).error =
        "Multiple errors occurred:" ++
          String.join ((realErrorsOf events).map (fun e => "\n- " ++ e.message))) := by
  constructor
  · intro hnone
    rw [DiscoverDICOMFilesAgg, aggregateCollect_spec]
    simp [MultiError.hasErrors, hnone]
  · intro hsome
    constructor
    · rw [DiscoverDICOMFilesAgg, aggregateCollect_spec]
      simp [MultiError.hasErrors, hsome]
    · rw [MultiError.error]
      simp [hsome]

/-- C4 witness: one real error and one ignorable error observed; the composite
holds only the real one and renders as header plus a single bullet. -/
theorem aggregate_failure_spec_witness :
    DiscoverDICOMFilesAgg [.inr (GoError.ioError "boom"), .inr GoError.fileTooSmall] =
      ([], some ⟨[GoError.ioError "boom"]⟩) ∧
    (⟨[GoError.ioError "boom"]⟩ : MultiError).error =
      "Multiple errors occurred:" ++
        String.join ([GoError.ioError "boom"].map (fun e => "\n- " ++ e.message)) := by
  have h := (aggregate_failure_spec
    [.inr (GoError.ioError "boom"), .inr GoError.fileTooSmall]).2 (by decide)
  have hre : realErrorsOf [.inr (GoError.ioError "boom"), .inr GoError.fileTooSmall] =
      [GoError.ioError "boom"] := by decide
  have hfl : filesOf ([.inr (GoError.ioError "boom"), .inr GoError.fileTooSmall] :
      List (DicomFile ⊕ GoError)) = [] := by decide
  rw [hre, hfl] at h
  exact h

theorem dicomParserWorker_go (files : List ParseInput) (acc : WorkerOut) :
    files.foldl
      (fun acc f =>
        match saveParseUntilEOF f.raw with
        | .inr e =>
          { acc with
            errors := acc.errors ++ [e],
            closedHandles := acc.closedHandles ++ [f.handle] }
        | .inl d =>
          { acc with
            records := acc.records ++
              [{ path := f.path, dataset := d, handle := f.handle, isOpen := true }] })
      acc =
    ⟨acc.records ++ files.filterMap recordOf,
     acc.errors ++ files.filterMap errorOf,
     acc.closedHandles ++ files.filterMap closedOf⟩ := by
  induction files generalizing acc with
  | nil => simp
  | cons f fs ih =>
    rw [List.foldl_cons]
    cases hs : saveParseUntilEOF f.raw with
    | inl d =>
      show List.foldl _ _ fs = _
      rw [ih]
      simp [recordOf, errorOf, closedOf, hs]
    | inr e =>
      show List.foldl _ _ fs = _
      rw [ih]
      simp [recordOf, errorOf, closedOf, hs]

theorem dicomParserWorker_spec (files : List ParseInput) :
    dicomParserWorker files =
      ⟨files.filterMap recordOf, files.filterMap errorOf, files.filterMap closedOf⟩ := by
  have h := dicomParserWorker_go files ⟨[], [], []⟩
  simpa [dicomParserWorker] using h

theorem records_errors_cover (files : List ParseInput) :
    (files.filterMap recordOf).length + (files.filterMap errorOf).length
      = files.length := by
  induction files with
  | nil => rfl
  | cons g gs ih =>
    cases hs : saveParseUntilEOF g.raw with
    | inl d =>
      simp only [List.filterMap_cons, recordOf, errorOf, hs, List.length_cons]
      simp only [recordOf, errorOf] at ih
      omega
    | inr e =>
      simp only [List.filterMap_cons, recordOf, errorOf, hs, List.length_cons]
      simp only [recordOf, errorOf] at ih
      omega

/-- C3: the decode worker isolates every failure to that file's iteration.
Processing is compositional (worker output over `xs ++ ys` is worker output
over `xs` followed by worker output over `ys`: a failure never stops later
files); a panicking decode yields exactly the converted ordinary error with
the handle closed; an error return likewise closes the handle; a success
emits the record with `isOpen := true`; every emitted record's handle stays
open (is never among the closed handles) provided handles are distinct. -/
theorem dicomParserWorker_isolation (xs ys : List ParseInput) (f : ParseInput)
    (hnd : (xs.map ParseInput.handle).Nodup) :
    ((dicomParserWorker (xs ++ ys)).records =
        (dicomParserWorker xs).records ++ (dicomParserWorker ys).records ∧
      (dicomParserWorker (xs ++ ys)).errors =
        (dicomParserWorker xs).errors ++ (dicomParserWorker ys).errors ∧
      (dicomParserWorker (xs ++ ys)).closedHandles =
        (dicomParserWorker xs).closedHandles ++ (dicomParserWorker ys).closedHandles) ∧
    (∀ v, f.raw = .panics v →
      dicomParserWorker [f] = ⟨[], [panicToError v], [f.handle]⟩) ∧
    (∀ e, f.raw = .fails e →
      dicomParserWorker [f] = ⟨[], [e], [f.handle]⟩) ∧
    (∀ d, f.raw = .ok d →
      dicomParserWorker [f] =
        ⟨[{ path := f.path, dataset := d, handle := f.handle, isOpen := true }], [], []⟩) ∧
    ((dicomParserWorker xs).records.length + (dicomParserWorker xs).errors.length
        = xs.length) ∧
    (∀ r ∈ (dicomParserWorker xs).records,
      r.isOpen = true ∧ r.handle ∉ (dicomParserWorker xs).closedHandles) := by
  refine ⟨?_, ?_, ?_, ?_, ?_, ?_⟩
  · simp [dicomParserWorker_spec, List.filterMap_append]
  · intro v hv
    simp [dicomParserWorker, saveParseUntilEOF, hv]
  · intro e he
    simp [dicomParserWorker, saveParseUntilEOF, he]
  · intro d hd
    simp [dicomParserWorker, saveParseUntilEOF, hd]
  · rw [dicomParserWorker_spec]
    exact records_errors_cover xs
  · intro r hr
    rw [dicomParserWorker_spec] at hr ⊢
    simp only [List.mem_filterMap] at hr
    obtain ⟨g, hg, hrec⟩ := hr
    rw [recordOf] at hrec
    cases hs : saveParseUntilEOF g.raw with
    | inr e => rw [hs] at hrec; simp at hrec
    | inl d =>
      rw [hs] at hrec
      simp only [Option.some.injEq] at hrec
      constructor
      · rw [← hrec]
      · intro hmem
        simp only [List.mem_filterMap] at hmem
        obtain ⟨g', hg', hcl⟩ := hmem
        rw [closedOf] at hcl
        cases hs' : saveParseUntilEOF g'.raw with
        | inl d' => rw [hs'] at hcl; simp at hcl
        | inr e' =>
          rw [hs'] at hcl
          simp only [Option.some.injEq] at hcl
          have hhandle : g'.handle = g.handle := by
            rw [hcl, ← hrec]
          have hgg : g' = g :=
            List.inj_on_of_nodup_map hnd hg' hg hhandle
          rw [hgg, hs] at hs'
          exact absurd hs' (by simp)

/-- C3 witness: one successful file, one panicking file, then one failing
file — the panic is converted, handles of failures are closed, the success
record keeps its handle open, and later files are still processed. -/
theorem dicomParserWorker_isolation_witness :
    ((dicomParserWorker ([⟨"a", 1, .ok ⟨[5]⟩⟩, ⟨"b", 2, .panics (.otherVal "boom")⟩] ++
          [⟨"c", 3, .fails (.decodeError "bad")⟩])).records =
        (dicomParserWorker [⟨"a", 1, .ok ⟨[5]⟩⟩, ⟨"b", 2, .panics (.otherVal "boom")⟩]).records ++
          (dicomParserWorker [⟨"c", 3, .fails (.decodeError "bad")⟩]).records ∧
      (dicomParserWorker ([⟨"a", 1, .ok ⟨[5]⟩⟩, ⟨"b", 2, .panics (.otherVal "boom")⟩] ++
          [⟨"c", 3, .fails (.decodeError "bad")⟩])).errors =
        (dicomParserWorker [⟨"a", 1, .ok ⟨[5]⟩⟩, ⟨"b", 2, .panics (.otherVal "boom")⟩]).errors ++
          (dicomParserWorker [⟨"c", 3, .fails (.decodeError "bad")⟩]).errors ∧
      (dicomParserWorker ([⟨"a", 1, .ok ⟨[5]⟩⟩, ⟨"b", 2, .panics (.otherVal "boom")⟩] ++
          [⟨"c", 3, .fails (.decodeError "bad")⟩])).closedHandles =
        (dicomParserWorker [⟨"a", 1, .ok ⟨[5]⟩⟩, ⟨"b", 2, .panics (.otherVal "boom")⟩]).closedHandles ++
          (dicomParserWorker [⟨"c", 3, .fails (.decodeError "bad")⟩]).closedHandles) ∧
    (∀ v, (⟨"b", 2, .panics (.otherVal "boom")⟩ : ParseInput).raw = .panics v →
      dicomParserWorker [⟨"b", 2, .panics (.otherVal "boom")⟩] =
        ⟨[], [panicToError v], [2]⟩) ∧
    (∀ e, (⟨"b", 2, .panics (.otherVal "boom")⟩ : ParseInput).raw = .fails e →
      dicomParserWorker [⟨"b", 2, .panics (.otherVal "boom")⟩] = ⟨[], [e], [2]⟩) ∧
    (∀ d, (⟨"b", 2, .panics (.otherVal "boom")⟩ : ParseInput).raw = .ok d →
      dicomParserWorker [⟨"b", 2, .panics (.otherVal "boom")⟩] =
        ⟨[{ path := "b", dataset := d, handle := 2, isOpen := true }], [], []⟩) ∧
    ((dicomParserWorker [⟨"a", 1, .ok ⟨[5]⟩⟩, ⟨"b", 2, .panics (.otherVal "boom")⟩]).records.length +
        (dicomParserWorker [⟨"a", 1, .ok ⟨[5]⟩⟩, ⟨"b", 2, .panics (.otherVal "boom")⟩]).errors.length = 2) ∧
    (∀ r ∈ (dicomParserWorker [⟨"a", 1, .ok ⟨[5]⟩⟩, ⟨"b", 2, .panics (.otherVal "boom")⟩]).records,
      r.isOpen = true ∧
        r.handle ∉ (dicomParserWorker [⟨"a", 1, .ok ⟨[5]⟩⟩,
          ⟨"b", 2, .panics (.otherVal "boom")⟩]).closedHandles) :=
  dicomParserWorker_isolation
    [⟨"a", 1, .ok ⟨[5]⟩⟩, ⟨"b", 2, .panics (.otherVal "boom")⟩]
    [⟨"c", 3, .fails (.decodeError "bad")⟩]
    ⟨"b", 2, .panics (.otherVal "boom")⟩
    (by decide)

/-- C9: when the record's handle was released, `GetHandle` reopens the source
by its stored path, marks the record open and returns the newly opened handle
(propagating an open failure unchanged); when the handle is still open, it
returns the existing handle and performs no open at all. -/
theorem GetHandle_spec (fs : String → Except GoError Nat) (p : ParsedDicomFile) :
    (p.isOpen = true → GetHandle fs p = (p, .ok p.handle, [])) ∧
    (p.isOpen = false → ∀ h, fs p.path = .ok h →
      GetHandle fs p = ({ p with handle := h, isOpen := true }, .ok h, [p.path])) ∧
    (p.isOpen = false → ∀ e, fs p.path = .error e →
      GetHandle fs p = (p, .error e, [p.path])) := by
  refine ⟨?_, ?_, ?_⟩
  · intro hopen
    simp [GetHandle, hopen]
  · intro hclosed h hfs
    simp [GetHandle, hclosed, hfs]
  · intro hclosed e hfs
    simp [GetHandle, hclosed, hfs]

/-- C9 witness: a released record is reopened at handle 7 by its stored path,
and an open record is returned untouched. -/
theorem GetHandle_spec_witness :
    GetHandle (fun _ => .ok 7) ⟨"a.dcm", ⟨[]⟩, 3, false⟩ =
      (⟨"a.dcm", ⟨[]⟩, 7, true⟩, .ok 7, ["a.dcm"]) ∧
    GetHandle (fun _ => .ok 7) ⟨"a.dcm", ⟨[]⟩, 3, true⟩ =
      (⟨"a.dcm", ⟨[]⟩, 3, true⟩, .ok 3, []) :=
  ⟨(GetHandle_spec (fun _ => .ok 7) ⟨"a.dcm", ⟨[]⟩, 3, false⟩).2.1 rfl 7 rfl,
   (GetHandle_spec (fun _ => .ok 7) ⟨"a.dcm", ⟨[]⟩, 3, true⟩).1 rfl⟩

/-- C10: closing an already-released record returns `nil`, closes nothing and
leaves the record unchanged; hence a second `Close` after any `Close` is a
no-op, so `Close` followed by `Close` equals a single `Close`. -/
theorem recordClose_idempotent (closeErr : Nat → Option GoError)
    (p : ParsedDicomFile) :
    (p.isOpen = false → recordClose closeErr p = (p, none, [])) ∧
    (recordClose closeErr (recordClose closeErr p).1 =
      ((recordClose closeErr p).1, none, [])) := by
  constructor
  · intro hclosed
    simp [recordClose, hclosed]
  · by_cases hopen : p.isOpen = true
    · simp [recordClose, hopen]
    · simp only [Bool.not_eq_true] at hopen
      simp [recordClose, hopen]

/-- C10 witness: a released record and a double close of an open record. -/
theorem recordClose_idempotent_witness :
    recordClose (fun _ => none) ⟨"a.dcm", ⟨[]⟩, 3, false⟩ =
      (⟨"a.dcm", ⟨[]⟩, 3, false⟩, none, []) ∧
    recordClose (fun _ => none)
        (recordClose (fun _ => none) ⟨"a.dcm", ⟨[]⟩, 3, true⟩).1 =
      ((recordClose (fun _ => none) ⟨"a.dcm", ⟨[]⟩, 3, true⟩).1, none, []) :=
  ⟨(recordClose_idempotent (fun _ => none) ⟨"a.dcm", ⟨[]⟩, 3, false⟩).1 rfl,
   (recordClose_idempotent (fun _ => none) ⟨"a.dcm", ⟨[]⟩, 3, true⟩).2⟩

theorem errChClosesFirst_of_not_mem (l : List Event)
    (h : Event.closeResultCh ∉ l) : errChClosesFirst l = true := by
  induction l with
  | nil => rfl
  | cons e t ih =>
    have hne : e ≠ Event.closeResultCh := fun he => h (he ▸ List.mem_cons_self e t)
    have ht : Event.closeResultCh ∉ t := fun hm => h (List.mem_cons_of_mem e hm)
    cases e <;> first
      | exact absurd rfl hne
      | rfl
      | exact ih ht

/-- If every goroutine, taken alone, never emits `closeResultCh` before its
own `closeErrCh`, then no interleaved trace does either. -/
theorem runThreads_errChClosesFirst (sched : List Nat)
    (threads : List (List Event))
    (h : ∀ l ∈ threads, errChClosesFirst l = true) :
    errChClosesFirst (runThreads sched threads) = true := by
  induction sched generalizing threads with
  | nil => rfl
  | cons i sched ih =>
    rw [runThreads]
    rcases hget : threads.get? i with _ | l
    · rw [stepThreads, hget]
      exact ih threads h
    · cases l with
      | nil =>
        rw [stepThreads, hget]
        exact ih threads h
      | cons e rest =>
        rw [stepThreads, hget]
        have hmem : (e :: rest) ∈ threads := List.get?_mem hget
        have hl : errChClosesFirst (e :: rest) = true := h _ hmem
        have hset : errChClosesFirst rest = true →
            ∀ l' ∈ threads.set i rest, errChClosesFirst l' = true := by
          intro hrest l' hl'
          rcases List.mem_or_eq_of_mem_set hl' with hmem' | heq
          · exact h _ hmem'
          · subst heq
            exact hrest
        cases e with
        | closeErrCh => rfl
        | closeResultCh => simp [errChClosesFirst] at hl
        | sendPath =>
          show errChClosesFirst (runThreads sched (threads.set i rest)) = true
          exact ih _ (hset hl)
        | sendFile =>
          show errChClosesFirst (runThreads sched (threads.set i rest)) = true
          exact ih _ (hset hl)
        | sendErr =>
          show errChClosesFirst (runThreads sched (threads.set i rest)) = true
          exact ih _ (hset hl)
        | closeFileCh =>
          show errChClosesFirst (runThreads sched (threads.set i rest)) = true
          exact ih _ (hset hl)
        | waitBarrier =>
          show errChClosesFirst (runThreads sched (threads.set i rest)) = true
          exact ih _ (hset hl)

/-- If no `closeResultCh` precedes the first `closeErrCh`, then every
occurrence of `closeResultCh` has a `closeErrCh` strictly before it. -/
theorem errChClosesFirst_before (t : List Event) (ht : errChClosesFirst t = true) :
    ∀ j, t.get? j = some Event.closeResultCh →
      ∃ i, i < j ∧ t.get? i = some Event.closeErrCh := by
  induction t with
  | nil => intro j hj; simp at hj
  | cons e rest ih =>
    intro j hj
    cases e with
    | closeResultCh => simp [errChClosesFirst] at ht
    | closeErrCh =>
      refine ⟨0, ?_, rfl⟩
      cases j with
      | zero => simp at hj
      | succ j' => exact Nat.succ_pos j'
    | sendPath =>
      cases j with
      | zero => simp at hj
      | succ j' =>
        obtain ⟨i, hi, hget⟩ := ih ht j' hj
        exact ⟨i + 1, Nat.succ_lt_succ hi, hget⟩
    | sendFile =>
      cases j with
      | zero => simp at hj
      | succ j' =>
        obtain ⟨i, hi, hget⟩ := ih ht j' hj
        exact ⟨i + 1, Nat.succ_lt_succ hi, hget⟩
    | sendErr =>
      cases j with
      | zero => simp at hj
      | succ j' =>
        obtain ⟨i, hi, hget⟩ := ih ht j' hj
        exact ⟨i + 1, Nat.succ_lt_succ hi, hget⟩
    | closeFileCh =>
      cases j with
      | zero => simp at hj
      | succ j' =>
        obtain ⟨i, hi, hget⟩ := ih ht j' hj
        exact ⟨i + 1, Nat.succ_lt_succ hi, hget⟩
    | waitBarrier =>
      cases j with
      | zero => simp at hj
      | succ j' =>
        obtain ⟨i, hi, hget⟩ := ih ht j' hj
        exact ⟨i + 1, Nat.succ_lt_succ hi, hget⟩

theorem closeResult_not_mem_walker (entries : List (Bool × Bool)) :
    Event.closeResultCh ∉ walkerThread entries := by
  intro hmem
  rw [walkerThread, List.mem_append] at hmem
  rcases hmem with h | h
  · rw [List.mem_flatMap] at h
    obtain ⟨en, _, hin⟩ := h
    rw [List.mem_append] at hin
    rcases hin with h' | h'
    · by_cases h1 : en.1 = true <;> simp [h1] at h'
    · by_cases h2 : en.2 = true <;> simp [h2] at h'
  · simp at h

theorem closeResult_not_mem_worker (outcomes : List Bool) :
    Event.closeResultCh ∉ workerThread outcomes := by
  intro hmem
  rw [workerThread, List.mem_map] at hmem
  obtain ⟨ok, _, heq⟩ := hmem
  by_cases hok : ok = true <;> simp [hok] at heq

/-- C5: for each stage (discovery and parsing), in every run — every schedule,
every walk result, every worker workload — whenever the trace records the
result channel's close, the error channel's close appears strictly earlier: the
error channel closes no later than the result channel. -/
theorem stage_close_order (sched : List Nat) (entries : List (Bool × Bool))
    (workers : List (List Bool)) (j : Nat) :
    ((runThreads sched (discoveryThreads entries workers)).get? j =
        some Event.closeResultCh →
      ∃ i, i < j ∧
        (runThreads sched (discoveryThreads entries workers)).get? i =
          some Event.closeErrCh) ∧
    ((runThreads sched (parsingThreads workers)).get? j =
        some Event.closeResultCh →
      ∃ i, i < j ∧
        (runThreads sched (parsingThreads workers)).get? i =
          some Event.closeErrCh) := by
  constructor
  · intro hj
    refine errChClosesFirst_before _ ?_ j hj
    apply runThreads_errChClosesFirst
    intro l hl
    rw [discoveryThreads] at hl
    rcases List.mem_cons.mp hl with heq | hl'
    · subst heq
      exact errChClosesFirst_of_not_mem _ (closeResult_not_mem_walker entries)
    · rcases List.mem_append.mp hl' with hw | hb
      · obtain ⟨o, _, heq⟩ := List.mem_map.mp hw
        rw [← heq]
        exact errChClosesFirst_of_not_mem _ (closeResult_not_mem_worker o)
      · have : l = barrierThread := by simpa using hb
        rw [this]
        rfl
  · intro hj
    refine errChClosesFirst_before _ ?_ j hj
    apply runThreads_errChClosesFirst
    intro l hl
    rcases List.mem_append.mp hl with hw | hb
    · obtain ⟨o, _, heq⟩ := List.mem_map.mp hw
      rw [← heq]
      exact errChClosesFirst_of_not_mem _ (closeResult_not_mem_worker o)
    · have : l = barrierThread := by simpa using hb
      rw [this]
      rfl

/-- C5 witness: a run of each stage with no files, scheduled so the barrier
performs both closes; `closeResultCh` appears at index 3 (discovery) / index 2
(parsing), with `closeErrCh` strictly before. -/
theorem stage_close_order_witness :
    ((runThreads [0, 1, 1, 1] (discoveryThreads [] [])).get? 3 =
        some Event.closeResultCh ∧
      ∃ i, i < 3 ∧
        (runThreads [0, 1, 1, 1] (discoveryThreads [] [])).get? i =
          some Event.closeErrCh) ∧
    ((runThreads [0, 0, 0] (parsingThreads [])).get? 2 =
        some Event.closeResultCh ∧
      ∃ i, i < 2 ∧
        (runThreads [0, 0, 0] (parsingThreads [])).get? i =
          some Event.closeErrCh) :=
  ⟨⟨by decide, (stage_close_order [0, 1, 1, 1] [] [] 3).1 (by decide)⟩,
   ⟨by decide, (stage_close_order [0, 0, 0] [] [] 2).2 (by decide)⟩⟩

/-- C6, evaluation at the failing run: the discovery error channel closes
first while the parsing error channel is still open and holds a pending
error.  Because the loop condition is `!discoveryFinished && !parseFinished`,
the collector stops as soon as the first channel closes: it ends with
`parseFinished = false`, having collected nothing — the still-open parsing
error channel is abandoned and its pending error is never received. -/
theorem errorCollectorLoop_abandons_open_channel :
    errorCollectorLoop
        [.discClosed, .parseErr (.decodeError "bad"), .parseClosed]
        initialCollector =
      ⟨true, false, []⟩ ∧
    (errorCollectorLoop
        [.discClosed, .parseErr (.decodeError "bad"), .parseClosed]
        initialCollector).parseFinished = false ∧
    GoError.decodeError "bad" ∉
      (errorCollectorLoop
        [.discClosed, .parseErr (.decodeError "bad"), .parseClosed]
        initialCollector).collected := by
  refine ⟨rfl, rfl, ?_⟩
  decide

/-- C7, evaluation at the failing interleaving: the background collector
appends record 7 between the consumer's unlocked snapshot read and its locked
clear.  Afterwards the buffer is empty and the only delivered batch is empty:
record 7 is in no batch and no longer in the buffer — it is lost, although
`addFileToCollection` completed its locked append. -/
theorem collectFiles_loses_record :
    bridgeRun [.readSnapshot, .appendFile 7, .clearAndEmit] initialAccum =
      ⟨[], [], [[]]⟩ ∧
    (∀ b ∈ (bridgeRun [.readSnapshot, .appendFile 7, .clearAndEmit]
        initialAccum).batches, 7 ∉ b) ∧
    7 ∉ (bridgeRun [.readSnapshot, .appendFile 7, .clearAndEmit]
        initialAccum).buffer := by
  refine ⟨rfl, ?_, ?_⟩ <;> decide

/-- C8, evaluation at the failing input: when the root itself cannot be
stat'ed, `WalkDir` invokes the callback once with a nil `DirEntry` and the
error; the callback sends the error and then panics on `d.IsDir()`, so the
walk does not continue and the path channel is never closed.  By contrast, a
traversal error on a non-root entry (whose `DirEntry` is non-nil) is reported
and the walk continues, visits the remaining entries and closes the path
channel. -/
theorem fileWalker_panics_on_root_error :
    fileWalkerRun [⟨"/missing", none, some (.ioError "lstat failed")⟩] =
      .error "runtime error: invalid memory address or nil pointer dereference" ∧
    fileWalkerRun
        [⟨"/d", some true, none⟩,
         ⟨"/d/sub", some true, some (.ioError "permission denied")⟩,
         ⟨"/d/a.dcm", some false, none⟩] =
      .ok ⟨["/d/a.dcm"], [.ioError "permission denied"], true⟩ :=
  ⟨rfl, rfl⟩

end Tyro
